import Mathlib

/-!
Verification of the user-directory core of `bynrw/benutzerliste`.

The definitions below are a shallow embedding of the decision logic in
`src/components/Benutzerliste.jsx`, `src/components/BenutzerForm.jsx` and
their collaborators.  JavaScript strings are modelled as `List Char`,
absent / `null` object fields as `Option`, and the component's React
state as an explicit record (`StoreState`) with the event handlers as
state-transition functions.  Gateway (axios) calls are modelled by an
explicit result argument (success payload or fault) plus a trace of the
calls a handler performs.
-/

namespace Benutzerliste

/-- JavaScript strings, modelled as lists of characters. -/
abbrev Str := List Char

/-- A role entry as delivered by the backend (`{ roleName: ... }`). -/
structure Role where
  roleName : Str
deriving DecidableEq, Repr

/-- An organisation membership (`{ orgName: ..., roles: [...] }`).
`roles` absent in the response is modelled as the empty list, which the
code treats identically (`org.roles && org.roles.length > 0`). -/
structure Organisation where
  orgName : Str
  roles : List Role := []
deriving DecidableEq, Repr

/-- A user record as stored in the component's `users` state.  Every
field that JavaScript code guards with a truthiness check before use is
an `Option`; `none` models an absent or `null` field.  The record keeps
both the canonical field names (`firstname`, `lastname`, `mail`) and the
historical variants (`firstName`, `lastName`, `email`) because the
source stores responses verbatim and consults the variants only in the
rendering layer. -/
structure User where
  userUid : Option Str := none
  username : Option Str := none
  firstname : Option Str := none
  lastname : Option Str := none
  mail : Option Str := none
  firstName : Option Str := none
  lastName : Option Str := none
  email : Option Str := none
  phone : Option Str := none
  organisations : Option (List Organisation) := none
  deleted : Option Bool := none
deriving DecidableEq, Repr

/-- JavaScript truthiness of a possibly-absent string: `undefined`,
`null` and `''` are falsy, everything else truthy. -/
def jsTruthy (s : Option Str) : Bool :=
  match s with
  | none => false
  | some v => !v.isEmpty

/-- Model of `String.prototype.toLowerCase` (character-wise lowering). -/
def toLowerStr (s : Str) : Str := s.map Char.toLower

/-- Model of `hay.startsWith(pat)`: `pat` is a prefix of `hay`. -/
def startsWith : Str → Str → Bool
  | _, [] => true
  | [], _ :: _ => false
  | c :: cs, d :: ds => c == d && startsWith cs ds

/-- Model of `hay.includes(pat)`: `pat` occurs contiguously in `hay`. -/
def containsStr : Str → Str → Bool
  | [], pat => pat.isEmpty
  | c :: cs, pat => startsWith (c :: cs) pat || containsStr cs pat

/-- One disjunct of the text filter, `Benutzerliste.jsx:251-254`:
`field && field.toLowerCase().includes(searchLower)`. -/
def fieldMatch (field : Option Str) (searchLower : Str) : Bool :=
  match field with
  | none => false
  | some s => !s.isEmpty && containsStr (toLowerStr s) searchLower

/-- The text predicate of `applyFilters` (`Benutzerliste.jsx:246-256`):
case-insensitive substring match against `firstname`, `lastname`,
`username`, `mail`.  The historical variant fields are not consulted. -/
def matchesText (u : User) (nameFilter : Str) : Bool :=
  fieldMatch u.firstname (toLowerStr nameFilter) ||
  fieldMatch u.lastname (toLowerStr nameFilter) ||
  fieldMatch u.username (toLowerStr nameFilter) ||
  fieldMatch u.mail (toLowerStr nameFilter)

/-- The organisation predicate of `applyFilters`
(`Benutzerliste.jsx:259-265`): `user.organisations &&
user.organisations.some(org => org.orgName === orgFilter)`. -/
def matchesOrg (u : User) (orgFilter : Str) : Bool :=
  match u.organisations with
  | none => false
  | some orgs => orgs.any (fun o => o.orgName == orgFilter)

/-- The pure list transformation performed by `applyFilters` on a
non-empty filter (`Benutzerliste.jsx:242-268`): the text filter is
applied when `nameFilter` is non-empty, then the organisation filter
when `orgFilter` is non-empty. -/
def applyFiltersList (users : List User) (nameFilter orgFilter : Str) : List User :=
  let f1 := if !nameFilter.isEmpty
            then users.filter (fun u => matchesText u nameFilter)
            else users
  if !orgFilter.isEmpty then f1.filter (fun u => matchesOrg u orgFilter) else f1

/-- Organisation names contributed by one user
(`Benutzerliste.jsx:141-150`): the guard `if (org.orgName)` drops empty
names, and an absent `organisations` field contributes nothing. -/
def orgNamesOf (u : User) : List Str :=
  (u.organisations.getD []).filterMap
    (fun o => if o.orgName.isEmpty then none else some o.orgName)

/-- All organisation names across a loaded user list, in order. -/
def allOrgNames (l : List User) : List Str := l.flatMap orgNamesOf

/-- The organisation index computed after a fetch
(`Benutzerliste.jsx:138-153`): a `Set` removes duplicates, then
`Array.from(orgSet).sort()` sorts lexicographically ascending.  The
`Set`'s insertion order is irrelevant after sorting, so deduplication is
modelled by `List.dedup`; JavaScript's default `sort` on strings is the
lexicographic order on `List Char`, modelled by `insertionSort` with
`(· ≤ ·)` (any comparison sort agrees on the deduplicated list). -/
def extractOrganisationsList (l : List User) : List Str :=
  List.insertionSort (· ≤ ·) (allOrgNames l).dedup

/-- The component state of `Benutzerliste.jsx` that the claims
touch. -/
structure StoreState where
  users : List User := []
  error : Option Str := none
  organisations : List Str := []
  loading : Bool := false
  deleteDialogOpen : Bool := false
  deleteTargetId : Option Str := none
deriving DecidableEq, Repr

/-- Error message set by the fetch fault handler
(`Benutzerliste.jsx:157`). -/
def loadErrorMsg : Str := "Fehler beim Laden der Benutzer".toList

/-- Error message set by the delete fault handler
(`Benutzerliste.jsx:353`). -/
def deleteErrorMsg : Str := "Fehler beim Löschen des Benutzers".toList

/-- Result of the gateway `list` call as seen by `fetchUsers`: either
the normalized user list or a fault raised by the gateway. -/
inductive FetchResult where
  | ok (userList : List User)
  | fault
deriving DecidableEq, Repr

/-- State transition of `fetchUsers` (`Benutzerliste.jsx:106-163`) for
a gateway outcome.  On success the user list replaces the collection and
the error is cleared; the organisation index is recomputed only when the
list is non-empty (`if (Array.isArray(userList) && userList.length > 0)`).
On a gateway fault only the error message is set; the previously loaded
collection and index are left untouched. -/
def fetchUsersStep (st : StoreState) (res : FetchResult) : StoreState :=
  match res with
  | .ok userList =>
    let st1 := { st with users := userList, error := none }
    let st2 := if !userList.isEmpty
               then { st1 with organisations := extractOrganisationsList userList }
               else st1
    { st2 with loading := false }
  | .fault => { st with error := some loadErrorMsg, loading := false }

/-- State transition of `applyFilters` (`Benutzerliste.jsx:235-269`).
When both filters are empty the handler requests a refetch (returned
flag `true`) and leaves the state alone; otherwise it REPLACES the
`users` state with the filtered subset of the currently loaded (possibly
already filtered) collection. -/
def applyFiltersStep (st : StoreState) (nameFilter orgFilter : Str) :
    StoreState × Bool :=
  if nameFilter.isEmpty && orgFilter.isEmpty then (st, true)
  else ({ st with users := applyFiltersList st.users nameFilter orgFilter }, false)

/-- Whitespace characters matched by JavaScript's `\s` and removed by
`trim` (ASCII portion, which is all the code relies on). -/
def isWs (c : Char) : Bool :=
  c == ' ' || c == '\t' || c == '\n' || c == '\r' || c == '\x0b' || c == '\x0c'

/-- Model of the required-field test `!s || s.trim() === ''`
(`BenutzerForm.jsx:182-198`): true iff every character is whitespace
(the empty string included). -/
def isBlankStr (s : Str) : Bool := s.all isWs

/-- True iff no character of `s` is whitespace (`[^\s@]` without the
`@` part). -/
def noWsStr (s : Str) : Bool := s.all (fun c => !isWs c)

/-- Full-match semantics of the e-mail pattern
`/^[^\s@]+@[^\s@]+\.[^\s@]+$/` (`BenutzerForm.jsx:199`).  A string
matches iff it decomposes as `local ++ "@" ++ d ++ "." ++ t` with all
three parts non-empty and free of whitespace and further `@`s.
Equivalently — since the three character classes exclude `@` — the
string has exactly one `@`, no whitespace, a non-empty part before the
`@`, and a `.` strictly inside the part after the `@` (at distance ≥ 1
from the `@` and with at least one character following it). -/
def emailMatch (s : Str) : Bool :=
  noWsStr s && s.count '@' == 1 &&
    (let loc := s.takeWhile (fun c => c != '@')
     let rest := (s.dropWhile (fun c => c != '@')).drop 1
     !loc.isEmpty && ((rest.drop 1).dropLast.contains '.'))

/-- The form's field state (`BenutzerForm.jsx:93-101`).  `userUid` is
`none` in create mode; the populate effect adds it (possibly as the
empty string) when an `editUser` is supplied.  No form input is named
`userUid`, so `handleChange` can never alter it. -/
structure FormData where
  userUid : Option Str := none
  username : Str := []
  firstname : Str := []
  lastname : Str := []
  mail : Str := []
  phone : Str := []
  organisation : Str := []
  role : Str := []
deriving DecidableEq, Repr

/-- JavaScript `v || fallback` for a possibly-absent string field. -/
def jsOr (v : Option Str) (fallback : Str) : Str :=
  match v with
  | some s => if s.isEmpty then fallback else s
  | none => fallback

/-- The populate effect of the form (`BenutzerForm.jsx:120-152`): with
an `editUser` the draft receives the record's canonical field with the
historical variant as fallback, plus the first membership's organisation
and that membership's first role; without one the draft is reset to the
empty draft (no `userUid` key). -/
def populateForm (editUser : Option User) : FormData :=
  match editUser with
  | some u =>
    let firstOrg : Option Organisation := (u.organisations.getD []).head?
    { userUid := some (jsOr u.userUid [])
      username := jsOr u.username []
      firstname := jsOr u.firstname (jsOr u.firstName [])
      lastname := jsOr u.lastname (jsOr u.lastName [])
      mail := jsOr u.mail (jsOr u.email [])
      phone := jsOr u.phone []
      organisation := match firstOrg with
                      | some o => o.orgName
                      | none => []
      role := match firstOrg with
              | some o => match o.roles.head? with
                          | some r => r.roleName
                          | none => []
              | none => [] }
  | none => {}

/-- The empty draft (initial `useState` value and create-mode reset). -/
def emptyDraft : FormData := {}

/-- Field keys of the error object built by `validateForm`. -/
def usernameKey : Str := "username".toList

/-- Field key of the first-name error. -/
def firstnameKey : Str := "firstname".toList

/-- Field key of the last-name error. -/
def lastnameKey : Str := "lastname".toList

/-- Field key of the e-mail error. -/
def mailKey : Str := "mail".toList

/-- Model of `validateForm` (`BenutzerForm.jsx:178-205`) returning the
error object as an association list in assignment order.  Only the four
keys below can ever be assigned; `phone`, `organisation` and `role` are
never validated. -/
def validateForm (fd : FormData) : List (Str × Str) :=
  (if isBlankStr fd.username
   then [(usernameKey, "Benutzername ist erforderlich".toList)] else [])
  ++ (if isBlankStr fd.firstname
      then [(firstnameKey, "Vorname ist erforderlich".toList)] else [])
  ++ (if isBlankStr fd.lastname
      then [(lastnameKey, "Nachname ist erforderlich".toList)] else [])
  ++ (if isBlankStr fd.mail
      then [(mailKey, "E-Mail ist erforderlich".toList)]
      else if !emailMatch fd.mail
      then [(mailKey, "Ungültige E-Mail-Adresse".toList)] else [])

/-- One remote operation of `userService` as performed by a handler. -/
inductive GWCall where
  | list
  | getById (id : Str)
  | create (fd : FormData)
  | update (fd : FormData)
  | deleteCall (id : Option Str)
deriving DecidableEq, Repr

/-- The create-vs-update branch condition of `handleSubmit`
(`BenutzerForm.jsx:221`): `editUser && editUser.userUid` — the
`editUser` prop is present and carries a truthy id. -/
def isEditWithId (editUser : Option User) : Bool :=
  match editUser with
  | some u => jsTruthy u.userUid
  | none => false

/-- Model of `handleSubmit` (`BenutzerForm.jsx:210-245`): run
`validateForm`; when it reports errors, store them and perform no
gateway call; otherwise perform exactly one call, `update` when
`editUser && editUser.userUid`, `create` otherwise.  Returns the error
state together with the trace of gateway calls performed. -/
def handleSubmit (editUser : Option User) (fd : FormData) :
    List (Str × Str) × List GWCall :=
  let errs := validateForm fd
  if errs.isEmpty then
    (errs, if isEditWithId editUser then [GWCall.update fd] else [GWCall.create fd])
  else (errs, [])

/-- JavaScript strict equality `a === b` between the `userUid` field
(a string or `undefined`) and the delete target (a string or `null`):
true only when both are strings and equal — `undefined === null` is
false. -/
def jsStrictEq (a b : Option Str) : Bool :=
  match a, b with
  | some x, some y => x == y
  | _, _ => false

/-- Model of `handleConfirmDelete` (`Benutzerliste.jsx:338-356`) for a
gateway outcome.  On success the record with the stored target id is
removed from the local collection (`users.filter(u => u.userUid !==
deleteTargetId)`), the dialog closed and the error cleared — no `list`
call is made.  On a fault only the error is set; collection, dialog and
target are untouched.  The performed gateway calls are returned. -/
def handleConfirmDelete (st : StoreState) (success : Bool) :
    StoreState × List GWCall :=
  let calls := [GWCall.deleteCall st.deleteTargetId]
  if success then
    ({ st with
        users := st.users.filter (fun u => !(jsStrictEq u.userUid st.deleteTargetId))
        deleteDialogOpen := false
        deleteTargetId := none
        error := none }, calls)
  else
    ({ st with error := some deleteErrorMsg }, calls)

/-- Rendered first name (`Benutzerliste.jsx:562`):
`user.firstname || user.firstName || '-'`. -/
def displayFirstname (u : User) : Str :=
  jsOr u.firstname (jsOr u.firstName "-".toList)

/-- Rendered last name (`Benutzerliste.jsx:563`). -/
def displayLastname (u : User) : Str :=
  jsOr u.lastname (jsOr u.lastName "-".toList)

/-- Rendered e-mail (`Benutzerliste.jsx:564`). -/
def displayMail (u : User) : Str :=
  jsOr u.mail (jsOr u.email "-".toList)

/-- Untyped JavaScript values, as far as the response-shape handling in
`fetchUsers` can observe them. -/
inductive JVal where
  | jnull
  | jundefined
  | jbool (b : Bool)
  | jnum (n : Int)
  | jstr (s : Str)
  | jarr (elems : List JVal)
  | jobj (fields : List (Str × JVal))

/-- JavaScript truthiness of an arbitrary value. -/
def JVal.truthy : JVal → Bool
  | .jnull => false
  | .jundefined => false
  | .jbool b => b
  | .jnum n => n != 0
  | .jstr s => !s.isEmpty
  | .jarr _ => true
  | .jobj _ => true

/-- First-match field lookup in an object, `undefined` when absent. -/
def lookupField : List (Str × JVal) → Str → JVal
  | [], _ => .jundefined
  | (k, v) :: rest, key => if k == key then v else lookupField rest key

/-- JavaScript property access `v[key]`.  On `null` and `undefined` it
raises a `TypeError` (modelled as `Except.error`); on any other
non-object it yields `undefined`; on an object it looks the key up. -/
def JVal.get : JVal → Str → Except Unit JVal
  | .jnull, _ => .error ()
  | .jundefined, _ => .error ()
  | .jobj fields, key => .ok (lookupField fields key)
  | _, _ => .ok .jundefined

/-- `Array.isArray`. -/
def JVal.isArr : JVal → Bool
  | .jarr _ => true
  | _ => false

/-- The element list of an array value, `[]` otherwise. -/
def JVal.asList : JVal → List JVal
  | .jarr xs => xs
  | _ => []

/-- Key `_embedded` of the HAL envelope shape. -/
def embeddedKey : Str := "_embedded".toList

/-- Key `users` inside the HAL envelope. -/
def usersKey : Str := "users".toList

/-- Key `content` of the paginated envelope shape. -/
def contentKey : Str := "content".toList

/-- The `else if` chain of `fetchUsers` after the first branch failed
(`Benutzerliste.jsx:124-134`): a bare array is taken as the list; else
`response.content` is accessed and taken when it is a truthy array;
anything else yields the empty list (`userList` stays `[]`, and the
final `Array.isArray` guard keeps it a list). -/
def contentFallback (resp : JVal) : Except Unit (List JVal) :=
  if resp.isArr then .ok resp.asList
  else
    match resp.get contentKey with
    | .error e => .error e
    | .ok c => if c.truthy && c.isArr then .ok c.asList else .ok []

/-- The response-shape normalization of `fetchUsers`
(`Benutzerliste.jsx:115-134`).  It first evaluates
`response._embedded && response._embedded.users` — the very first
property access raises when the response is `null` or `undefined`; when
that value is truthy it becomes `userList`, subject to the final
`Array.isArray(userList) ? userList : []` guard; otherwise the bare
array and `content` shapes are tried. -/
def normalizeResponse (resp : JVal) : Except Unit (List JVal) :=
  match resp.get embeddedKey with
  | .error e => .error e
  | .ok emb =>
    if emb.truthy then
      match emb.get usersKey with
      | .error e => .error e
      | .ok us =>
        if us.truthy then .ok (if us.isArr then us.asList else [])
        else contentFallback resp
    else contentFallback resp

/-- Total object lookup used to state shape predicates about non-null
responses: field of an object, `undefined` for everything else. -/
def lookupD (v : JVal) (key : Str) : JVal :=
  match v with
  | .jobj fields => lookupField fields key
  | _ => .jundefined

/-- The value at `response._embedded.users`. -/
def usersVal (v : JVal) : JVal := lookupD (lookupD v embeddedKey) usersKey

/-- The value at `response.content`. -/
def contentVal (v : JVal) : JVal := lookupD v contentKey

/-- Characterization of `startsWith`: the pattern is a literal prefix. -/
theorem startsWith_iff (hay pat : Str) :
    startsWith hay pat = true ↔ ∃ rest, hay = pat ++ rest := by
  induction pat generalizing hay with
  | nil => simp [startsWith]
  | cons d ds ih =>
    cases hay with
    | nil => simp [startsWith]
    | cons c cs => simp [startsWith, ih]

/-- Characterization of `containsStr`: the pattern occurs contiguously,
i.e. the haystack splits around a literal copy of the pattern. -/
theorem containsStr_iff (hay pat : Str) :
    containsStr hay pat = true ↔ ∃ pre post, hay = pre ++ pat ++ post := by
  induction hay with
  | nil =>
    simp only [containsStr, List.isEmpty_iff]
    constructor
    · rintro rfl
      exact ⟨[], [], rfl⟩
    · rintro ⟨pre, post, h⟩
      rcases List.append_eq_nil.mp h.symm with ⟨h1, h2⟩
      exact (List.append_eq_nil.mp h1).2
  | cons c cs ih =>
    rw [show containsStr (c :: cs) pat
          = (startsWith (c :: cs) pat || containsStr cs pat) from rfl,
        Bool.or_eq_true, startsWith_iff, ih]
    constructor
    · rintro (⟨rest, hr⟩ | ⟨pre, post, hp⟩)
      · exact ⟨[], rest, by simpa using hr⟩
      · exact ⟨c :: pre, post, by simp [hp]⟩
    · rintro ⟨pre, post, hp⟩
      cases pre with
      | nil => exact Or.inl ⟨post, by simpa using hp⟩
      | cons p ps =>
        simp only [List.cons_append, List.cons.injEq] at hp
        exact Or.inr ⟨ps, post, hp.2⟩

/-- Spec-side text predicate for one field: the (lower-cased) term is a
substring of the (lower-cased) field value, the field being present. -/
def SpecCIContains (term : Str) (field : Option Str) : Prop :=
  ∃ s pre post, field = some s ∧ toLowerStr s = pre ++ toLowerStr term ++ post

/-- For a non-empty term, the code's guarded field test agrees with the
spec-side case-insensitive substring predicate. -/
theorem fieldMatch_iff {term : Str} (h : term ≠ []) (f : Option Str) :
    fieldMatch f (toLowerStr term) = true ↔ SpecCIContains term f := by
  cases f with
  | none => simp [fieldMatch, SpecCIContains]
  | some s =>
    by_cases hs : s.isEmpty
    · rw [List.isEmpty_iff] at hs
      subst hs
      simp only [fieldMatch, List.isEmpty_nil, Bool.not_true, Bool.false_and,
        Bool.false_eq_true, false_iff, SpecCIContains, Option.some.injEq]
      rintro ⟨s', pre, post, hs', hp⟩
      subst hs'
      have hp' : ([] : Str) = pre ++ toLowerStr term ++ post := by
        simpa [toLowerStr] using hp
      have h1 := (List.append_eq_nil.mp hp'.symm).1
      exact h (List.map_eq_nil_iff.mp (List.append_eq_nil.mp h1).2)
    · simp [fieldMatch, hs, containsStr_iff, SpecCIContains]

/-- The organisation test of `applyFilters` agrees with the spec-side
membership predicate (an absent `organisations` field counts as no
memberships). -/
theorem matchesOrg_iff (u : User) (org : Str) :
    matchesOrg u org = true ↔ ∃ o ∈ u.organisations.getD [], o.orgName = org := by
  cases h : u.organisations <;> simp [matchesOrg, h]

/-- Strict equality against a present target id holds exactly on the
matching id. -/
theorem jsStrictEq_some_iff (a : Option Str) (t : Str) :
    jsStrictEq a (some t) = true ↔ a = some t := by
  cases a <;> simp [jsStrictEq]

/-- Negated form of `jsStrictEq_some_iff`. -/
theorem jsStrictEq_some_eq_false_iff (a : Option Str) (t : Str) :
    jsStrictEq a (some t) = false ↔ a ≠ some t := by
  cases a <;> simp [jsStrictEq]

/-- Membership in the organisation index: exactly the non-empty
organisation names occurring in some membership of some loaded user. -/
theorem mem_extractOrganisationsList (l : List User) (s : Str) :
    s ∈ extractOrganisationsList l ↔
      s ≠ [] ∧ ∃ u ∈ l, ∃ o ∈ u.organisations.getD [], o.orgName = s := by
  unfold extractOrganisationsList
  rw [(List.perm_insertionSort _ _).mem_iff, List.mem_dedup]
  unfold allOrgNames
  rw [List.mem_flatMap]
  constructor
  · rintro ⟨u, hu, hs⟩
    unfold orgNamesOf at hs
    rcases List.mem_filterMap.mp hs with ⟨o, ho, hf⟩
    by_cases he : o.orgName.isEmpty
    · simp [he] at hf
    · simp only [he, Bool.false_eq_true, if_false, Option.some.injEq] at hf
      subst hf
      exact ⟨by simpa [List.isEmpty_iff] using he, u, hu, o, ho, rfl⟩
  · rintro ⟨hne, u, hu, o, ho, rfl⟩
    refine ⟨u, hu, ?_⟩
    unfold orgNamesOf
    refine List.mem_filterMap.mpr ⟨o, ho, ?_⟩
    simp [List.isEmpty_iff, hne]

/-- The organisation index is sorted lexicographically ascending. -/
theorem sorted_extractOrganisationsList (l : List User) :
    List.Sorted (· ≤ ·) (extractOrganisationsList l) :=
  List.sorted_insertionSort _ _

/-- The organisation index is duplicate-free. -/
theorem nodup_extractOrganisationsList (l : List User) :
    (extractOrganisationsList l).Nodup :=
  ((List.perm_insertionSort _ _).nodup_iff).mpr (List.nodup_dedup _)

/-- Property access succeeds on every value other than `null` and
`undefined`, yielding the total lookup. -/
theorem JVal.get_eq_ok (v : JVal) (k : Str)
    (h1 : v ≠ JVal.jnull) (h2 : v ≠ JVal.jundefined) :
    v.get k = .ok (lookupD v k) := by
  cases v with
  | jnull => exact absurd rfl h1
  | jundefined => exact absurd rfl h2
  | jbool b => rfl
  | jnum n => rfl
  | jstr s => rfl
  | jarr xs => rfl
  | jobj fs => rfl

/-- A truthy value is neither `null` nor `undefined`. -/
theorem JVal.truthy_ne (v : JVal) (h : v.truthy = true) :
    v ≠ JVal.jnull ∧ v ≠ JVal.jundefined := by
  cases v <;> simp_all [JVal.truthy]

/-- On a non-null response that is neither a bare array nor carries a
`content` array, the fallback chain yields the empty list. -/
theorem contentFallback_unrecognized (v : JVal)
    (h1 : v ≠ JVal.jnull) (h2 : v ≠ JVal.jundefined)
    (hB : v.isArr = false) (hC : (contentVal v).isArr = false) :
    contentFallback v = .ok [] := by
  unfold contentFallback
  rw [hB, JVal.get_eq_ok v contentKey h1 h2]
  rw [show contentVal v = lookupD v contentKey from rfl] at hC
  simp [hC]

/-- Spec-side text predicate: the term is empty, or a case-insensitive
substring of first name, last name, username, or e-mail. -/
def SpecTextPred (u : User) (term : Str) : Prop :=
  term = [] ∨ SpecCIContains term u.firstname ∨ SpecCIContains term u.lastname ∨
    SpecCIContains term u.username ∨ SpecCIContains term u.mail

/-- Spec-side organisation predicate: the selection is empty, or some
membership's organisation name equals it exactly. -/
def SpecOrgPred (u : User) (org : Str) : Prop :=
  org = [] ∨ ∃ o ∈ u.organisations.getD [], o.orgName = org

/-- For a non-empty term, the code's text test agrees with the
spec-side four-field substring disjunction. -/
theorem matchesText_iff {term : Str} (h : term ≠ []) (u : User) :
    matchesText u term = true ↔
      SpecCIContains term u.firstname ∨ SpecCIContains term u.lastname ∨
      SpecCIContains term u.username ∨ SpecCIContains term u.mail := by
  unfold matchesText
  rw [Bool.or_eq_true, Bool.or_eq_true, Bool.or_eq_true,
      fieldMatch_iff h, fieldMatch_iff h, fieldMatch_iff h, fieldMatch_iff h]
  simp [or_assoc]

/-- Membership in a single `applyFilters` pass over a given collection:
exactly the elements satisfying both spec-side predicates. -/
theorem mem_applyFiltersList (users : List User) (term org : Str) (u : User)
    (h : term ≠ [] ∨ org ≠ []) :
    u ∈ applyFiltersList users term org ↔
      u ∈ users ∧ SpecTextPred u term ∧ SpecOrgPred u org := by
  cases term with
  | nil =>
    cases org with
    | nil => rcases h with h | h <;> exact absurd rfl h
    | cons b bs =>
      simp [applyFiltersList, List.mem_filter, matchesOrg_iff,
        SpecTextPred, SpecOrgPred]
  | cons a as =>
    cases org with
    | nil =>
      simp [applyFiltersList, List.mem_filter,
        matchesText_iff (List.cons_ne_nil a as), SpecTextPred, SpecOrgPred]
    | cons b bs =>
      simp [applyFiltersList, List.mem_filter,
        matchesText_iff (List.cons_ne_nil a as), matchesOrg_iff,
        SpecTextPred, SpecOrgPred, and_assoc]
      exact fun _ => and_comm

/-- The fallback chain never raises on a non-null response. -/
theorem contentFallback_isOk (v : JVal)
    (h1 : v ≠ JVal.jnull) (h2 : v ≠ JVal.jundefined) :
    (contentFallback v).isOk = true := by
  unfold contentFallback
  by_cases hB : v.isArr
  · simp [hB, Except.isOk, Except.toBool]
  · rw [JVal.get_eq_ok v contentKey h1 h2]
    by_cases hc : (lookupD v contentKey).truthy && (lookupD v contentKey).isArr <;>
      simp [hB, hc, Except.isOk, Except.toBool]

/-- Fixture: a fully-populated user, organisation `Acme`, role
`ADMIN`. -/
def uAlice : User :=
  { userUid := some "u1".toList
    username := some "alice1".toList
    firstname := some "Alice".toList
    lastname := some "Muster".toList
    mail := some "alice@example.com".toList
    organisations := some [⟨"Acme".toList, [⟨"ADMIN".toList⟩]⟩] }

/-- Fixture: a user whose first name starts with `aa`. -/
def uAA : User := { userUid := some "u1".toList, firstname := some "aa".toList }

/-- Fixture: a user whose first name starts with `bb`. -/
def uBB : User := { userUid := some "u2".toList, firstname := some "bb".toList }

/-- Fixture: a user carrying only the historical variant field
`firstName`, none of the canonical text-search fields. -/
def uVariantOnly : User :=
  { userUid := some "u9".toList, firstName := some "alice".toList }

/-- Fixture: the canonical twin of `uVariantOnly`. -/
def uCanonical : User :=
  { userUid := some "u9".toList, firstname := some "alice".toList }

/-- Fixture: a user record valid under `validateForm` after
`populateForm`. -/
def uMax : User :=
  { userUid := some "u7".toList
    username := some "max".toList
    firstname := some "Max".toList
    lastname := some "Mustermann".toList
    mail := some "max@example.com".toList }

/-- Fixture: a draft with valid required fields. -/
def fdMax : FormData :=
  { username := "max".toList
    firstname := "Max".toList
    lastname := "Mustermann".toList
    mail := "a@b.com".toList }

/-- Fixture: an empty store. -/
def stEmpty : StoreState := {}

/-- Fixture: a store holding `uAA` and `uBB`. -/
def stAB : StoreState := { users := [uAA, uBB] }

/-- Fixture: a store whose organisation index lists `Acme`. -/
def stWithAcme : StoreState :=
  { users := [uAlice], organisations := ["Acme".toList] }

/-- Fixture: a store with the delete dialog open, targeting `u1`. -/
def stDel : StoreState :=
  { users := [uAA, uBB], deleteDialogOpen := true,
    deleteTargetId := some "u1".toList }

/-- C1 (counterexample): the claim that applying a second, different
filter after a first yields the same result as applying only the second
filter to the full loaded collection is false.  With `uAA` (first name
`aa`) and `uBB` (first name `bb`) loaded, filtering by text `a` and
then by text `b` yields the empty list, while filtering the full
collection by `b` alone yields `[uBB]`: `applyFilters` stores the
filtered subset back into the loaded collection, so successive filters
compound. -/
theorem applyFilters_compound_counterexample :
    ((applyFiltersStep ((applyFiltersStep stAB "a".toList []).1)
        "b".toList []).1).users = [] ∧
    applyFiltersList stAB.users "b".toList [] = [uBB] := by
  constructor <;> decide

/-- C1 (amended): a single `applyFilters` call with a non-empty text
term or organisation selection replaces the loaded collection with
`visible(collection loaded at that moment, FilterState)` and requests
no refetch; with both filters empty it leaves the collection alone and
requests a refetch.  Consequently a second non-empty filter call
operates on the already-filtered collection — the visible list is
re-derivable from the full loaded collection only for the first filter
application after a refresh, not across successive filter
applications. -/
theorem applyFilters_single_step_spec (st : StoreState)
    (nameFilter orgFilter : Str)
    (h : ¬(nameFilter = [] ∧ orgFilter = [])) :
    (applyFiltersStep st nameFilter orgFilter).1.users
        = applyFiltersList st.users nameFilter orgFilter ∧
    (applyFiltersStep st nameFilter orgFilter).2 = false ∧
    (∀ st' : StoreState, (applyFiltersStep st' [] []).2 = true) ∧
    (applyFiltersStep (applyFiltersStep st nameFilter orgFilter).1
        nameFilter orgFilter).1.users
      = applyFiltersList (applyFiltersList st.users nameFilter orgFilter)
          nameFilter orgFilter := by
  have hg : (nameFilter.isEmpty && orgFilter.isEmpty) = false := by
    cases nameFilter with
    | nil =>
      cases orgFilter with
      | nil => exact absurd ⟨rfl, rfl⟩ h
      | cons b bs => rfl
    | cons a as => rfl
  refine ⟨?_, ?_, fun st' => rfl, ?_⟩ <;> simp [applyFiltersStep, hg]

/-- C1 (witness): the amended single-step equation at a concrete
store and filter. -/
theorem applyFilters_single_step_spec_witness :
    (applyFiltersStep stAB "a".toList []).1.users
      = applyFiltersList stAB.users "a".toList [] :=
  (applyFilters_single_step_spec stAB "a".toList []
    (by simp)).1

/-- C2 (counterexample): the load path does not merge the historical
variant field names into the canonical ones.  A record carrying only
`firstName` is stored verbatim by a successful fetch (its canonical
`firstname` stays absent), renders in the table via the variant
fallback, and fails the text filter for a term its canonical twin
matches. -/
theorem variant_fields_not_merged_counterexample :
    (fetchUsersStep stEmpty (.ok [uVariantOnly])).users = [uVariantOnly] ∧
    uVariantOnly.firstname = none ∧
    displayFirstname uVariantOnly = "alice".toList ∧
    matchesText uVariantOnly "alice".toList = false ∧
    matchesText uCanonical "alice".toList = true := by
  refine ⟨by decide, rfl, by decide, by decide, by decide⟩

/-- C2 (amended): the load path stores records unchanged — no
normalization step merges the variant field names at ingestion.
Variant tolerance lives only in the rendering layer (`firstname ||
firstName`, etc.), while the text filter reads only the canonical
fields: a record whose canonical text fields are all absent but which
carries a variant first name still renders that name, yet matches no
search term. -/
theorem load_keeps_variant_fields (st : StoreState) (l : List User)
    (u : User) (s t : Str) (hs : s ≠ [])
    (h1 : u.firstname = none) (h2 : u.lastname = none)
    (h3 : u.username = none) (h4 : u.mail = none)
    (h5 : u.firstName = some s) :
    (fetchUsersStep st (.ok l)).users = l ∧
    displayFirstname u = s ∧
    matchesText u t = false := by
  have hse : s.isEmpty = false := by
    cases s with
    | nil => exact absurd rfl hs
    | cons c cs => rfl
  refine ⟨?_, ?_, ?_⟩
  · cases hl : l.isEmpty <;> simp [fetchUsersStep, hl]
  · simp [displayFirstname, jsOr, h1, h5, hse]
  · simp [matchesText, fieldMatch, h1, h2, h3, h4]

/-- C2 (witness): the amended statement at the concrete variant-only
record. -/
theorem load_keeps_variant_fields_witness :
    (fetchUsersStep stEmpty (.ok [uVariantOnly])).users = [uVariantOnly] ∧
    displayFirstname uVariantOnly = "alice".toList ∧
    matchesText uVariantOnly "ali".toList = false :=
  load_keeps_variant_fields stEmpty [uVariantOnly] uVariantOnly
    "alice".toList "ali".toList (by decide) rfl rfl rfl rfl rfl

/-- C3 (counterexample): the claim includes `null` and `undefined`
among the raw values that normalize to the empty sequence without
raising, but the very first property access
(`response._embedded`) raises a `TypeError` on both. -/
theorem normalizeResponse_null_raises :
    normalizeResponse JVal.jnull = .error () ∧
    normalizeResponse JVal.jundefined = .error () :=
  ⟨rfl, rfl⟩

/-- C3 (amended): for every raw value other than `null` and
`undefined` the normalization never raises, and when the value is not
one of the three recognized shapes (no `_embedded.users` array, not a
bare array, no `content` array) it yields the empty sequence.  On
`null` and `undefined` the property access raises, and the enclosing
`try/catch` of `fetchUsers` turns it into the general load error. -/
theorem normalizeResponse_amended :
    (∀ v : JVal, v ≠ JVal.jnull → v ≠ JVal.jundefined →
        (normalizeResponse v).isOk = true) ∧
    (∀ v : JVal, v ≠ JVal.jnull → v ≠ JVal.jundefined →
        (usersVal v).isArr = false → v.isArr = false →
        (contentVal v).isArr = false →
        normalizeResponse v = .ok []) := by
  constructor
  · intro v h1 h2
    unfold normalizeResponse
    rw [JVal.get_eq_ok v embeddedKey h1 h2]
    dsimp only
    by_cases he : (lookupD v embeddedKey).truthy
    · obtain ⟨hn, hu⟩ := JVal.truthy_ne _ he
      rw [JVal.get_eq_ok _ usersKey hn hu]
      dsimp only
      by_cases hus : (lookupD (lookupD v embeddedKey) usersKey).truthy
      · simp [he, hus, Except.isOk, Except.toBool]
      · simpa [he, hus] using contentFallback_isOk v h1 h2
    · simpa [he] using contentFallback_isOk v h1 h2
  · intro v h1 h2 hU hB hC
    unfold normalizeResponse
    rw [JVal.get_eq_ok v embeddedKey h1 h2]
    dsimp only
    by_cases he : (lookupD v embeddedKey).truthy
    · obtain ⟨hn, hu⟩ := JVal.truthy_ne _ he
      rw [JVal.get_eq_ok _ usersKey hn hu]
      dsimp only
      by_cases hus : (lookupD (lookupD v embeddedKey) usersKey).truthy
      · have hU' : (lookupD (lookupD v embeddedKey) usersKey).isArr = false := hU
        simp [he, hus, hU']
      · simpa [he, hus] using contentFallback_unrecognized v h1 h2 hB hC
    · simpa [he] using contentFallback_unrecognized v h1 h2 hB hC

/-- C3 (witness): a number — one of the unrecognized shapes named by
the claim — normalizes to the empty sequence without raising. -/
theorem normalizeResponse_amended_witness :
    normalizeResponse (JVal.jnum 7) = .ok [] :=
  normalizeResponse_amended.2 (JVal.jnum 7) (by simp) (by simp) rfl rfl rfl

/-- Sanity: the HAL envelope shape is recognized. -/
theorem sanity_normalize_hal :
    normalizeResponse
      (.jobj [(embeddedKey, .jobj [(usersKey, .jarr [.jnum 1])])])
      = .ok [.jnum 1] := rfl

/-- Sanity: the bare array shape is recognized. -/
theorem sanity_normalize_bare :
    normalizeResponse (.jarr [.jnum 1]) = .ok [.jnum 1] := rfl

/-- Sanity: the paginated `content` shape is recognized. -/
theorem sanity_normalize_content :
    normalizeResponse (.jobj [(contentKey, .jarr [.jnum 2])])
      = .ok [.jnum 2] := rfl

/-- C4 (counterexample): a successful refresh that yields an EMPTY
user list does not recompute the Organisation Index
(`if (Array.isArray(userList) && userList.length > 0)` skips the
recomputation), so the index keeps the stale previous entries instead
of becoming the — empty — set of organisation names of the loaded
collection. -/
theorem organisationIndex_stale_counterexample :
    (fetchUsersStep stWithAcme (.ok [])).users = [] ∧
    (fetchUsersStep stWithAcme (.ok [])).organisations = ["Acme".toList] ∧
    extractOrganisationsList [] = [] := by
  refine ⟨rfl, rfl, rfl⟩

/-- C4 (amended): after every successful refresh yielding a NON-EMPTY
user list, the Organisation Index equals the lexicographically
ascending, duplicate-free list of the non-empty organisation names
across all memberships of the loaded users; a refresh yielding an
empty list leaves the previous index unchanged. -/
theorem organisationIndex_spec (st : StoreState) (l : List User)
    (h : l ≠ []) :
    (fetchUsersStep st (.ok l)).organisations = extractOrganisationsList l ∧
    List.Sorted (· ≤ ·) (fetchUsersStep st (.ok l)).organisations ∧
    (fetchUsersStep st (.ok l)).organisations.Nodup ∧
    (∀ s, s ∈ (fetchUsersStep st (.ok l)).organisations ↔
        s ≠ [] ∧ ∃ u ∈ l, ∃ o ∈ u.organisations.getD [], o.orgName = s) ∧
    (∀ st' : StoreState,
        (fetchUsersStep st' (.ok [])).organisations = st'.organisations) := by
  have hne : l.isEmpty = false := by
    cases l with
    | nil => exact absurd rfl h
    | cons u us => rfl
  have heq : (fetchUsersStep st (.ok l)).organisations
      = extractOrganisationsList l := by
    simp [fetchUsersStep, hne]
  exact ⟨heq, heq ▸ sorted_extractOrganisationsList l,
    heq ▸ nodup_extractOrganisationsList l,
    fun s => heq ▸ mem_extractOrganisationsList l s,
    fun st' => rfl⟩

/-- C4 (witness): the amended index equations at a concrete refresh. -/
theorem organisationIndex_spec_witness :
    (fetchUsersStep stEmpty (.ok [uAlice])).organisations
      = extractOrganisationsList [uAlice] :=
  (organisationIndex_spec stEmpty [uAlice] (by simp)).1

/-- C5: for a FilterState with a non-empty term or organisation
selection, one `applyFilters` pass over a collection keeps exactly the
users satisfying both the text predicate (term empty, or
case-insensitive substring of first name, last name, username or
e-mail) AND the organisation predicate (selection empty, or some
membership's organisation name equals it exactly); and the text
predicate is insensitive to the user's organisation memberships. -/
theorem visible_characterization (users : List User) (term org : Str)
    (u : User) (h : term ≠ [] ∨ org ≠ []) :
    (u ∈ applyFiltersList users term org ↔
        u ∈ users ∧ SpecTextPred u term ∧ SpecOrgPred u org) ∧
    (∀ orgs', matchesText { u with organisations := orgs' } term
        = matchesText u term) :=
  ⟨mem_applyFiltersList users term org u h, fun _ => rfl⟩

/-- C5 (witness): the characterization applied at a concrete
collection and term, extracting a concrete membership fact. -/
theorem visible_characterization_witness :
    uAlice ∈ ([uAlice] : List User) :=
  ((visible_characterization [uAlice] "ali".toList [] uAlice
      (Or.inl (by decide))).1.mp (by decide)).1

/-- C6: `submit()` first validates; on a non-empty error mapping it
stores those errors and performs no gateway call.  On a valid draft it
performs exactly one gateway call — `update` when the submission
carries an identity, `create` otherwise — and, because the populate
effect is the only writer of the draft's `userUid` (no form input is
named `userUid`), identity presence in the draft coincides with the
code's `editUser && editUser.userUid` branch condition. -/
theorem submit_branch_spec (eu : Option User) (fd : FormData)
    (hid : fd.userUid = (populateForm eu).userUid) :
    (validateForm fd ≠ [] → handleSubmit eu fd = (validateForm fd, [])) ∧
    ((∃ s, fd.userUid = some s ∧ s ≠ []) ↔ isEditWithId eu = true) ∧
    (validateForm fd = [] →
      handleSubmit eu fd =
        (validateForm fd,
          if isEditWithId eu then [GWCall.update fd] else [GWCall.create fd]) ∧
      (handleSubmit eu fd).2.length = 1) := by
  refine ⟨?_, ?_, ?_⟩
  · intro hne
    have hb : (validateForm fd).isEmpty = false := by
      cases hv : validateForm fd with
      | nil => exact absurd hv hne
      | cons p ps => rfl
    simp [handleSubmit, hb]
  · cases eu with
    | none =>
      have : (populateForm none).userUid = none := rfl
      rw [this] at hid
      simp [hid, isEditWithId]
    | some u =>
      have : (populateForm (some u)).userUid = some (jsOr u.userUid []) := rfl
      rw [this] at hid
      rw [hid]
      cases hu : u.userUid with
      | none => simp [jsOr, isEditWithId, jsTruthy, hu]
      | some v =>
        by_cases hv : v.isEmpty
        · have hv' : v = [] := List.isEmpty_iff.mp hv
          subst hv'
          simp [jsOr, isEditWithId, jsTruthy, hu]
        · have hv' : v ≠ [] := by
            intro hc; subst hc; exact hv rfl
          simp [jsOr, isEditWithId, jsTruthy, hu, hv, hv']
  · intro he
    simp [handleSubmit, he, apply_ite List.length]

/-- C6 (witness): submitting the draft populated from an existing
record with an id performs exactly one call. -/
theorem submit_branch_spec_witness :
    (handleSubmit (some uMax) (populateForm (some uMax))).2.length = 1 :=
  ((submit_branch_spec (some uMax) (populateForm (some uMax)) rfl).2.2
    (by decide)).2

/-- C7: `validateForm` reports an error exactly for a username, first
name or last name that is blank after trimming and for an e-mail that
is blank or fails the `local@domain` pattern; it never reports an
error for any other field (`phone`, `organisation`, `role` included);
the empty draft yields exactly the four errors, `a@b` fails the
pattern and `a@b.com` passes, so a draft with those required fields
filled and mail `a@b.com` validates cleanly. -/
theorem validateForm_spec :
    (∀ fd : FormData,
        usernameKey ∈ (validateForm fd).map Prod.fst ↔
          isBlankStr fd.username = true) ∧
    (∀ fd : FormData,
        firstnameKey ∈ (validateForm fd).map Prod.fst ↔
          isBlankStr fd.firstname = true) ∧
    (∀ fd : FormData,
        lastnameKey ∈ (validateForm fd).map Prod.fst ↔
          isBlankStr fd.lastname = true) ∧
    (∀ fd : FormData,
        mailKey ∈ (validateForm fd).map Prod.fst ↔
          (isBlankStr fd.mail = true ∨ emailMatch fd.mail = false)) ∧
    (∀ fd : FormData,
        ((validateForm fd).map Prod.fst).all
          (fun k => k == usernameKey || k == firstnameKey ||
            k == lastnameKey || k == mailKey) = true) ∧
    (validateForm emptyDraft).map Prod.fst
        = [usernameKey, firstnameKey, lastnameKey, mailKey] ∧
    emailMatch "a@b".toList = false ∧
    emailMatch "a@b.com".toList = true ∧
    validateForm fdMax = [] := by
  refine ⟨?_, ?_, ?_, ?_, ?_, by decide, by decide, by decide, by decide⟩ <;>
    (intro fd
     by_cases h1 : isBlankStr fd.username <;>
     by_cases h2 : isBlankStr fd.firstname <;>
     by_cases h3 : isBlankStr fd.lastname <;>
     by_cases h4 : isBlankStr fd.mail <;>
     by_cases h5 : emailMatch fd.mail <;>
       simp +decide [validateForm, h1, h2, h3, h4, h5])

/-- C8: a successful `confirmDelete()` removes from the local loaded
collection exactly the records carrying the stored target id — every
record with a different (or absent) id is kept, in order — closes the
confirmation dialog, and the only gateway call performed is the delete
call, never a `list` (no refetch). -/
theorem confirmDelete_success_spec (st : StoreState) (t : Str)
    (hT : st.deleteTargetId = some t)
    (_hIn : ∃ u ∈ st.users, u.userUid = some t) :
    (handleConfirmDelete st true).1.users
        = st.users.filter (fun u => !(jsStrictEq u.userUid (some t))) ∧
    (∀ u : User, u ∈ (handleConfirmDelete st true).1.users ↔
        u ∈ st.users ∧ u.userUid ≠ some t) ∧
    (handleConfirmDelete st true).1.users.Sublist st.users ∧
    (handleConfirmDelete st true).1.deleteDialogOpen = false ∧
    (∀ c ∈ (handleConfirmDelete st true).2, c ≠ GWCall.list) := by
  have h1 : (handleConfirmDelete st true).1.users
      = st.users.filter (fun u => !(jsStrictEq u.userUid st.deleteTargetId)) := rfl
  refine ⟨by rw [h1, hT], ?_, ?_, rfl, ?_⟩
  · intro u
    rw [h1, hT]
    simp [List.mem_filter, jsStrictEq_some_eq_false_iff]
  · rw [h1]
    exact List.filter_sublist _
  · intro c hc
    have hc' : c = GWCall.deleteCall st.deleteTargetId := by
      simpa [handleConfirmDelete] using hc
    subst hc'
    simp

/-- C8 (witness): deleting `u1` from a store holding `uAA` and `uBB`
closes the dialog. -/
theorem confirmDelete_success_spec_witness :
    (handleConfirmDelete stDel true).1.deleteDialogOpen = false :=
  (confirmDelete_success_spec stDel "u1".toList rfl
    ⟨uAA, by decide, rfl⟩).2.2.2.1

/-- C9: every gateway fault leaves the displayed data intact.  A
refresh fault only sets the general load error — collection,
organisation index, dialog state and delete target are unchanged.  A
`confirmDelete` fault only sets the general delete error — the
collection is unchanged and the confirmation dialog stays open with
the target id still set. -/
theorem gateway_fault_frame :
    (∀ st : StoreState,
        (fetchUsersStep st .fault).users = st.users ∧
        (fetchUsersStep st .fault).organisations = st.organisations ∧
        (fetchUsersStep st .fault).error = some loadErrorMsg ∧
        (fetchUsersStep st .fault).deleteDialogOpen = st.deleteDialogOpen ∧
        (fetchUsersStep st .fault).deleteTargetId = st.deleteTargetId) ∧
    (∀ (st : StoreState) (t : Str),
        st.deleteTargetId = some t → st.deleteDialogOpen = true →
        (handleConfirmDelete st false).1.users = st.users ∧
        (handleConfirmDelete st false).1.error = some deleteErrorMsg ∧
        (handleConfirmDelete st false).1.deleteDialogOpen = true ∧
        (handleConfirmDelete st false).1.deleteTargetId = some t) := by
  constructor
  · intro st
    exact ⟨rfl, rfl, rfl, rfl, rfl⟩
  · intro st t h1 h2
    refine ⟨rfl, rfl, ?_, ?_⟩
    · rw [show (handleConfirmDelete st false).1.deleteDialogOpen
          = st.deleteDialogOpen from rfl, h2]
    · rw [show (handleConfirmDelete st false).1.deleteTargetId
          = st.deleteTargetId from rfl, h1]

/-- C9 (witness): the delete-fault frame at a concrete store with the
dialog open. -/
theorem gateway_fault_frame_witness :
    (handleConfirmDelete stDel false).1.error = some deleteErrorMsg :=
  (gateway_fault_frame.2 stDel "u1".toList rfl rfl).2.1

/-- C10: the text predicate is total over records with absent or
`null` search fields — each absent field simply contributes a
non-match — so a user whose four canonical text-search fields are all
absent matches no term, even when variant fields make it render. -/
theorem textFilter_absent_fields (u : User) (t : Str)
    (h1 : u.firstname = none) (h2 : u.lastname = none)
    (h3 : u.username = none) (h4 : u.mail = none) :
    matchesText u t = false ∧ ∀ f : Str, fieldMatch none f = false :=
  ⟨by simp [matchesText, h1, h2, h3, h4, fieldMatch], fun _ => rfl⟩

/-- C10 (witness): the variant-only record — which renders `alice` in
the table — matches no search term. -/
theorem textFilter_absent_fields_witness :
    matchesText uVariantOnly "alice".toList = false ∧
    ∀ f : Str, fieldMatch none f = false :=
  textFilter_absent_fields uVariantOnly "alice".toList rfl rfl rfl rfl

/-- Sanity: substring matching on small concrete inputs. -/
theorem sanity_containsStr :
    containsStr "hallo".toList "all".toList = true ∧
    containsStr "hallo".toList "z".toList = false := by
  constructor <;> decide

/-- Sanity: the organisation index sorts, deduplicates and drops empty
names on a concrete input. -/
theorem sanity_extractOrganisations :
    extractOrganisationsList
      [{ organisations := some [⟨"B".toList, []⟩, ⟨"A".toList, []⟩] },
       { organisations := some [⟨"B".toList, []⟩, ⟨[], []⟩] }]
      = ["A".toList, "B".toList] := by decide

end Benutzerliste
